import Mathlib

/-!
Shallow embedding of the bucket-locker repository.

The definitions below translate src/src/bucket_locker/bucket_locker.py
(class Locker) into Lean.  The remote object store is given the semantics
of the repository test double in src/tests/_fakes.py (FakeBlob and
FakeBucket): the generation of an absent blob reads as 0, a write assigns
a fresh generation from a global counter and stores the checksum of the
written bytes, a conditional write with if_generation_match = m fails with
PreconditionFailed exactly when the current generation differs from m, an
unconditional write (match = None) never fails, and delete is best effort.

State is passed explicitly; a session-level function returns the final
state together with an optional propagated exception, so that the state
after a failure remains observable.  Every remote API call is recorded in
a trace field, which is how claims about which remote calls happen are
stated.  Wall-clock time for the lease loop is a rational number; the
cooperative sleep advances it by the polling delay.  The checksum
primitive (google_crc32c) is out of scope per the specification and is a
function parameter throughout.
-/

namespace BucketLocker

/-- Byte strings are modelled as lists of naturals. -/
abbrev Bytes := List Nat

/-- Exceptions that can propagate through the embedded code: the typed
BlobNotFound error, the PreconditionFailed raised by the store on a failed
conditional write, the TimeoutError raised when the lease deadline is
exceeded (carrying the blob name used in its message), the RuntimeError
wrapper for unexpected lock-acquisition failures, exhaustion of the
explicit loop fuel of the embedding, and an arbitrary exception raised by
the caller body inside a session. -/
inductive Err where
  | blobNotFound (name : String)
  | preconditionFailed
  | lockTimeout (name : String)
  | lockError
  | fuelOut
  | callerErr (code : Nat)
deriving DecidableEq

/-- One remote API call, as recorded in the trace: a metadata fetch
(blob.reload), an existence check (blob.exists), a content download, an
upload with its generation precondition (none means unconditional), and a
deletion. -/
inductive RemoteCall where
  | reload (name : String)
  | existsCheck (name : String)
  | download (name : String)
  | upload (name : String) (precond : Option Nat)
  | deleteCall (name : String)
deriving DecidableEq

/-- A remote object: its generation, its content, and its recorded
content digest (absent digests are allowed, matching blob.crc32c being
None). -/
structure RemoteObj where
  gen : Nat
  bytes : Bytes
  crc : Option Bytes
deriving DecidableEq

/-- Lookup in an association list keyed by strings, first binding wins. -/
def lookupA {α : Type} : List (String × α) → String → Option α
  | [], _ => none
  | (k, v) :: rest, key => if k = key then some v else lookupA rest key

/-- Remove every binding for a key. -/
def eraseA {α : Type} : List (String × α) → String → List (String × α)
  | [], _ => []
  | (k, v) :: rest, key => if k = key then eraseA rest key else (k, v) :: eraseA rest key

/-- Overwrite the binding for a key, as assignment into a dict or a file
system directory. -/
def insertA {α : Type} (l : List (String × α)) (key : String) (v : α) : List (String × α) :=
  (key, v) :: eraseA l key

/-- The whole world the embedded code acts on: the remote store with its
global generation counter (the fake starts it at 1), the local cached
files keyed by blob name, the local metadata sidecars (the sidecar file
holds the decimal generation as text; we store the parsed number), the
per-path asyncio lock table, the process identifier, the event-loop
clock, and the trace of remote calls made so far. -/
structure St where
  gcs : List (String × RemoteObj)
  nextGen : Nat
  files : List (String × Bytes)
  metas : List (String × Nat)
  localLock : List (String × Bool)
  pid : String
  clock : Rat
  trace : List RemoteCall
deriving DecidableEq

/-- Append one remote call to the trace. -/
def record (s : St) (c : RemoteCall) : St :=
  { s with trace := s.trace ++ [c] }

/-- FakeBlob.generation: the stored generation, or 0 when the blob does
not exist. -/
def blobGeneration (s : St) (name : String) : Nat :=
  match lookupA s.gcs name with
  | some o => o.gen
  | none => 0

/-- FakeBlob.crc32c: the stored digest, or None when the blob does not
exist. -/
def blobCrc (s : St) (name : String) : Option Bytes :=
  match lookupA s.gcs name with
  | some o => o.crc
  | none => none

/-- Bytes of a string, for the lock blob content. -/
def strBytes (str : String) : Bytes :=
  str.data.map Char.toNat

/-- Locker._remote_lock_path. -/
def remote_lock_path (blob_name : String) : String :=
  "locks/" ++ blob_name ++ ".lock"

/-- Locker._files_differ_crc32c: if the remote digest is falsy (absent or
empty) report a difference without reading the local file; otherwise
compare the streamed local checksum against the decoded remote digest. -/
def files_differ_crc32c (crc : Bytes → Bytes) (content : Bytes) (remoteCrc : Option Bytes) : Bool :=
  match remoteCrc with
  | none => true
  | some d => if d = [] then true else decide (crc content ≠ d)

/-- FakeBlob.upload_from_filename and upload_from_string: record the call,
enforce if_generation_match (None means unconditional), and on success
store the data under a fresh generation together with its checksum. -/
def blob_upload (crc : Bytes → Bytes) (name : String) (data : Bytes) (precond : Option Nat)
    (s : St) : St × Option Err :=
  let s := record s (.upload name precond)
  match precond with
  | some m =>
      if blobGeneration s name = m then
        ({ s with gcs := insertA s.gcs name ⟨s.nextGen, data, some (crc data)⟩,
                  nextGen := s.nextGen + 1 }, none)
      else (s, some .preconditionFailed)
  | none =>
      ({ s with gcs := insertA s.gcs name ⟨s.nextGen, data, some (crc data)⟩,
                nextGen := s.nextGen + 1 }, none)

/-- Locker._local_in_sync: read the recorded local generation; when absent
the copy is stale with no remote call; otherwise reload the blob metadata
and compare generations. -/
def local_in_sync (blob_name : String) (s : St) : Bool × St :=
  match lookupA s.metas blob_name with
  | none => (false, s)
  | some g =>
      let s := record s (.reload blob_name)
      (decide (blobGeneration s blob_name = g), s)

/-- Locker._save_generation: reload the metadata of the given blob and
write its generation into the sidecar of the given resource name. -/
def save_generation (blob_name targetBlob : String) (s : St) : St :=
  let s := record s (.reload targetBlob)
  { s with metas := insertA s.metas blob_name (blobGeneration s targetBlob) }

/-- Locker._download_blob: when the local copy is in sync do nothing;
otherwise check existence, raise BlobNotFound when the blob is absent, and
otherwise download the content and record the observed generation. -/
def download_blob (blob_name : String) (s : St) : St × Option Err :=
  let p := local_in_sync blob_name s
  if p.1 then (p.2, none)
  else
    let s := record p.2 (.existsCheck blob_name)
    match lookupA s.gcs blob_name with
    | some obj =>
        let s := record s (.download blob_name)
        let s := { s with files := insertA s.files blob_name obj.bytes }
        (save_generation blob_name blob_name s, none)
    | none => (s, some (.blobNotFound blob_name))

/-- Locker._upload_blob: skip silently when the local file is absent;
otherwise reload remote metadata, compare checksums, and when they differ
attempt a conditional overwrite keyed on the locally recorded generation
(unconditional when no generation was recorded).  On PreconditionFailed,
redirect to a create-only write of a fresh conflict-named blob; either
successful write is followed by saving the written generation under the
original resource name. -/
def upload_blob (crc : Bytes → Bytes) (tok : String) (blob_name : String) (s : St) :
    St × Option Err :=
  match lookupA s.files blob_name with
  | none => (s, none)
  | some content =>
      let s := record s (.reload blob_name)
      let local_gen := lookupA s.metas blob_name
      if files_differ_crc32c crc content (blobCrc s blob_name) then
        match blob_upload crc blob_name content local_gen s with
        | (s1, none) => (save_generation blob_name blob_name s1, none)
        | (s1, some Err.preconditionFailed) =>
            let newName := blob_name ++ ".conflict." ++ tok
            match blob_upload crc newName content (some 0) s1 with
            | (s2, none) => (save_generation blob_name newName s2, none)
            | (s2, some e) => (s2, some e)
        | (s1, some e) => (s1, some e)
      else (s, none)

/-- The lock blob content: process identifier plus timestamp; the content
is opaque to the protocol. -/
def lockContent (s : St) : Bytes :=
  strBytes s.pid

/-- The polling loop of Locker._acquire_blob_lock: while the clock is
before the deadline, attempt a conditional create of the lock blob; on
PreconditionFailed sleep for the delay and retry; on success return; any
other failure becomes a RuntimeError.  Once the deadline is reached raise
TimeoutError.  The loop carries explicit fuel; exhausting it while still
before the deadline is the fuelOut artifact of the embedding. -/
def acquire_loop (crc : Bytes → Bytes) (blob_name lockName : String) (content : Bytes)
    (delay deadline : Rat) : Nat → St → St × Option Err
  | fuel, s =>
    if s.clock < deadline then
      match fuel with
      | 0 => (s, some .fuelOut)
      | f + 1 =>
          match blob_upload crc lockName content (some 0) s with
          | (s1, none) => (s1, none)
          | (s1, some Err.preconditionFailed) =>
              acquire_loop crc blob_name lockName content delay deadline f
                { s1 with clock := s1.clock + delay }
          | (s1, some _) => (s1, some .lockError)
    else (s, some (.lockTimeout blob_name))

/-- Locker._acquire_blob_lock: compute the deadline from the current
clock and the timeout and run the polling loop on the lock blob. -/
def acquire_blob_lock (crc : Bytes → Bytes) (fuel : Nat) (timeout delay : Rat)
    (blob_name : String) (s : St) : St × Option Err :=
  acquire_loop crc blob_name (remote_lock_path blob_name) (lockContent s) delay
    (s.clock + timeout) fuel s

/-- Locker._release_blob_lock: delete the lock blob; any failure of the
delete (injected here through relFault) is caught and logged, never
propagated. -/
def release_blob_lock (relFault : Option Err) (blob_name : String) (s : St) : St × Option Err :=
  let ln := remote_lock_path blob_name
  let s := record s (.deleteCall ln)
  match relFault with
  | some _ => (s, none)
  | none => ({ s with gcs := eraseA s.gcs ln }, none)

/-- Set the in-process asyncio lock state for the resource. -/
def setLocalLock (blob_name : String) (b : Bool) (s : St) : St :=
  { s with localLock := insertA s.localLock blob_name b }

/-- The caller body of a read-write session: it may rewrite the local
file and may raise. -/
def runBody (bodyWrite : Option Bytes) (bodyErr : Option Err) (blob_name : String) (s : St) :
    St × Option Err :=
  let s := match bodyWrite with
           | none => s
           | some b => { s with files := insertA s.files blob_name b }
  (s, bodyErr)

/-- Python try-finally: run the finalizer on the state left by the body;
an exception raised by the finalizer replaces the in-flight exception,
otherwise the in-flight exception is kept. -/
def pyFinally (r : St × Option Err) (fin : St → St × Option Err) : St × Option Err :=
  let r2 := fin r.1
  (r2.1, r2.2.orElse (fun _ => r.2))

/-- Locker.owned_local_copy: take the local lock, acquire the remote
lease (its failure skips everything else), then download; if the download
succeeded run the caller body and, in a finally block, upload; in an outer
finally block release the lease; finally release the local lock. -/
def owned_local_copy (crc : Bytes → Bytes) (fuel : Nat) (timeout delay : Rat)
    (tok : String) (bodyWrite : Option Bytes) (bodyErr : Option Err)
    (relFault : Option Err) (blob_name : String) (s : St) : St × Option Err :=
  let s := setLocalLock blob_name true s
  let r :=
    match acquire_blob_lock crc fuel timeout delay blob_name s with
    | (s1, some e) => (s1, some e)
    | (s1, none) =>
        pyFinally
          (match download_blob blob_name s1 with
           | (s2, some e) => (s2, some e)
           | (s2, none) =>
               pyFinally (runBody bodyWrite bodyErr blob_name s2)
                 (upload_blob crc tok blob_name))
          (release_blob_lock relFault blob_name)
  (setLocalLock blob_name false r.1, r.2)

/-- Locker.readonly_local_copy: take the local lock, download, yield to
the caller body (which may raise), release the local lock; no lease and
no upload. -/
def readonly_local_copy (bodyErr : Option Err) (blob_name : String) (s : St) :
    St × Option Err :=
  let s := setLocalLock blob_name true s
  let r :=
    match download_blob blob_name s with
    | (s1, some e) => (s1, some e)
    | (s1, none) => (s1, bodyErr)
  (setLocalLock blob_name false r.1, r.2)

end BucketLocker

namespace BucketLocker

theorem lookupA_insertA_self {α : Type} (l : List (String × α)) (k : String) (v : α) :
    lookupA (insertA l k v) k = some v := by
  simp [insertA, lookupA]

theorem lookupA_eraseA_self {α : Type} (l : List (String × α)) (k : String) :
    lookupA (eraseA l k) k = none := by
  induction l with
  | nil => rfl
  | cons p rest ih =>
      obtain ⟨k1, v⟩ := p
      by_cases h : k1 = k <;> simp [eraseA, lookupA, h, ih]

theorem lookupA_eraseA_ne {α : Type} (l : List (String × α)) (k k2 : String)
    (h : k2 ≠ k) : lookupA (eraseA l k) k2 = lookupA l k2 := by
  induction l with
  | nil => rfl
  | cons p rest ih =>
      obtain ⟨k1, v⟩ := p
      by_cases h1 : k1 = k
      · subst h1
        simp [eraseA, lookupA, Ne.symm h, ih]
      · by_cases h2 : k1 = k2 <;> simp [eraseA, lookupA, h1, h2, h, ih]

theorem lookupA_insertA_ne {α : Type} (l : List (String × α)) (k k2 : String) (v : α)
    (h : k2 ≠ k) : lookupA (insertA l k v) k2 = lookupA l k2 := by
  simp [insertA, lookupA, Ne.symm h, lookupA_eraseA_ne l k k2 h]

theorem ne_remote_lock_path (blob_name : String) : blob_name ≠ remote_lock_path blob_name := by
  intro h
  have h2 := congrArg String.length h
  rw [remote_lock_path, String.length_append, String.length_append] at h2
  have h6 : ("locks/").length = 6 := by decide
  have h5 : (".lock").length = 5 := by decide
  omega

/-- Claim C5: when the locally recorded generation is present and equals the
current remote generation, the sync step issues exactly one metadata fetch,
performs no download, and leaves the whole local state (files and metadata
sidecars) unchanged. -/
theorem in_sync_no_download (blob_name : String) (s : St) (g : Nat) (obj : RemoteObj)
    (hm : lookupA s.metas blob_name = some g)
    (ho : lookupA s.gcs blob_name = some obj)
    (hg : obj.gen = g) :
    download_blob blob_name s = ({ s with trace := s.trace ++ [.reload blob_name] }, none) := by
  simp [download_blob, local_in_sync, hm, blobGeneration, record, ho, hg]

theorem in_sync_no_download_witness :
    download_blob "a" ⟨[("a", ⟨1, [2], some [9]⟩)], 5, [("a", [1])], [("a", 1)], [], "p", 0, []⟩ =
      (⟨[("a", ⟨1, [2], some [9]⟩)], 5, [("a", [1])], [("a", 1)], [], "p", 0,
        [.reload "a"]⟩, none) :=
  in_sync_no_download "a" _ 1 ⟨1, [2], some [9]⟩ (by decide) (by decide) rfl

/-- Claim C6: a reconciliation whose local content checksum matches the
recorded remote digest performs no remote write at all: the only remote call
is the metadata fetch, and the store, generation and sidecar are unchanged. -/
theorem unchanged_no_upload (crc : Bytes → Bytes) (tok blob_name : String) (s : St)
    (c d : Bytes) (obj : RemoteObj)
    (hf : lookupA s.files blob_name = some c)
    (ho : lookupA s.gcs blob_name = some obj)
    (hd : obj.crc = some d) (hne : d ≠ []) (heq : crc c = d) :
    upload_blob crc tok blob_name s = ({ s with trace := s.trace ++ [.reload blob_name] }, none) := by
  simp [upload_blob, hf, files_differ_crc32c, blobCrc, record, ho, hd, hne, heq]

theorem unchanged_no_upload_witness :
    upload_blob (fun b => 0 :: b) "t" "a"
        ⟨[("a", ⟨1, [2], some [0, 2]⟩)], 5, [("a", [2])], [("a", 1)], [], "p", 0, []⟩ =
      (⟨[("a", ⟨1, [2], some [0, 2]⟩)], 5, [("a", [2])], [("a", 1)], [], "p", 0,
        [.reload "a"]⟩, none) :=
  unchanged_no_upload (fun b => 0 :: b) "t" "a" _ [2] [0, 2] ⟨1, [2], some [0, 2]⟩
    (by decide) (by decide) rfl (by decide) rfl

/-- Claim C7: when the remote object carries no content digest the checksum
comparator conservatively reports a difference, for every local content and
every checksum function. -/
theorem missing_digest_forces_upload (crc : Bytes → Bytes) (content : Bytes) :
    files_differ_crc32c crc content none = true := rfl

/-- Claim C8: releasing the distributed lease never propagates a failure:
whatever fault the remote delete raises, the release call returns normally. -/
theorem release_never_throws (relFault : Option Err) (blob_name : String) (s : St) :
    (release_blob_lock relFault blob_name s).2 = none := by
  cases relFault <;> rfl

/-- Claim C9: with the local file present, no recorded local generation, and
differing content, reconciliation issues a single unconditional overwrite of
the original object (precondition none), records the fresh generation in the
sidecar, and never takes the conflict-redirect path. -/
theorem no_baseline_unconditional_overwrite (crc : Bytes → Bytes) (tok blob_name : String)
    (s : St) (c : Bytes)
    (hf : lookupA s.files blob_name = some c)
    (hm : lookupA s.metas blob_name = none)
    (hdiff : files_differ_crc32c crc c (blobCrc s blob_name) = true) :
    upload_blob crc tok blob_name s =
      ({ s with gcs := insertA s.gcs blob_name ⟨s.nextGen, c, some (crc c)⟩,
                nextGen := s.nextGen + 1,
                metas := insertA s.metas blob_name s.nextGen,
                trace := s.trace ++ [.reload blob_name, .upload blob_name none, .reload blob_name] },
       none) := by
  have hcrc : blobCrc { s with trace := s.trace ++ [RemoteCall.reload blob_name] } blob_name
      = blobCrc s blob_name := rfl
  simp [upload_blob, hf, hm, record, hcrc, hdiff, blob_upload, save_generation,
    blobGeneration, lookupA_insertA_self]

theorem no_baseline_unconditional_overwrite_witness :
    upload_blob (fun b => 0 :: b) "t" "a"
        ⟨[("a", ⟨3, [7], some [9]⟩)], 5, [("a", [1])], [], [], "p", 0, []⟩ =
      (⟨insertA [("a", ⟨3, [7], some [9]⟩)] "a" ⟨5, [1], some [0, 1]⟩, 6,
        [("a", [1])], insertA [] "a" 5, [], "p", 0,
        [.reload "a", .upload "a" none, .reload "a"]⟩, none) :=
  no_baseline_unconditional_overwrite (fun b => 0 :: b) "t" "a" _ [1]
    (by decide) (by decide) (by decide)

/-- Claim C1: at reconciliation with a stale baseline generation g and
changed content, the conditional overwrite keyed on g fails, a create-only
write places the content under the conflict key, the original object is left
untouched at its externally written generation, and the original sidecar
records the fallback generation. -/
theorem conflict_redirect (crc : Bytes → Bytes) (tok blob_name : String) (s : St)
    (c : Bytes) (g : Nat) (obj : RemoteObj)
    (hf : lookupA s.files blob_name = some c)
    (hm : lookupA s.metas blob_name = some g)
    (ho : lookupA s.gcs blob_name = some obj)
    (hg : obj.gen ≠ g)
    (hdiff : files_differ_crc32c crc c obj.crc = true)
    (hfresh : lookupA s.gcs (blob_name ++ ".conflict." ++ tok) = none) :
    ∃ s2, upload_blob crc tok blob_name s = (s2, none) ∧
      lookupA s2.gcs blob_name = some obj ∧
      lookupA s2.gcs (blob_name ++ ".conflict." ++ tok) = some ⟨s.nextGen, c, some (crc c)⟩ ∧
      lookupA s2.metas blob_name = some s.nextGen ∧
      s2.trace = s.trace ++ [.reload blob_name, .upload blob_name (some g),
        .upload (blob_name ++ ".conflict." ++ tok) (some 0),
        .reload (blob_name ++ ".conflict." ++ tok)] := by
  have hne : blob_name ≠ blob_name ++ ".conflict." ++ tok := by
    intro h
    rw [← h, ho] at hfresh
    exact Option.noConfusion hfresh
  have hcrc : blobCrc { s with trace := s.trace ++ [RemoteCall.reload blob_name] } blob_name
      = obj.crc := by simp [blobCrc, ho]
  have key : upload_blob crc tok blob_name s =
      ({ s with gcs := insertA s.gcs (blob_name ++ ".conflict." ++ tok) ⟨s.nextGen, c, some (crc c)⟩,
                nextGen := s.nextGen + 1,
                metas := insertA s.metas blob_name s.nextGen,
                trace := s.trace ++ [.reload blob_name, .upload blob_name (some g),
                  .upload (blob_name ++ ".conflict." ++ tok) (some 0),
                  .reload (blob_name ++ ".conflict." ++ tok)] }, none) := by
    simp [upload_blob, hf, hm, record, hcrc, hdiff, blob_upload, blobGeneration, ho, hg,
      hfresh, save_generation, lookupA_insertA_self]
  refine ⟨_, key, ?_, ?_, ?_, rfl⟩
  · rw [lookupA_insertA_ne _ _ _ _ hne, ho]
  · exact lookupA_insertA_self _ _ _
  · exact lookupA_insertA_self _ _ _

theorem conflict_redirect_witness :
    ∃ s2, upload_blob (fun b => 0 :: b) "t" "a"
        ⟨[("a", ⟨2, [5], some [9]⟩)], 7, [("a", [1])], [("a", 1)], [], "p", 0, []⟩ = (s2, none) ∧
      lookupA s2.gcs "a" = some ⟨2, [5], some [9]⟩ ∧
      lookupA s2.gcs ("a" ++ ".conflict." ++ "t") = some ⟨7, [1], some [0, 1]⟩ ∧
      lookupA s2.metas "a" = some 7 ∧
      s2.trace = [] ++ [.reload "a", .upload "a" (some 1),
        .upload ("a" ++ ".conflict." ++ "t") (some 0), .reload ("a" ++ ".conflict." ++ "t")] :=
  conflict_redirect (fun b => 0 :: b) "t" "a" _ [1] 1 ⟨2, [5], some [9]⟩
    (by decide) (by decide) (by decide) (by decide) (by decide) (by decide)

end BucketLocker

namespace BucketLocker

theorem blob_upload_trace (crc : Bytes → Bytes) (name : String) (data : Bytes)
    (p : Option Nat) (s : St) :
    (blob_upload crc name data p s).1.trace = s.trace ++ [.upload name p] := by
  cases p with
  | none => rfl
  | some m =>
      simp only [blob_upload]
      split <;> rfl

theorem acquire_loop_trace_mono (crc : Bytes → Bytes) (bn ln : String) (content : Bytes)
    (delay deadline : Rat) :
    ∀ (fuel : Nat) (s : St),
      ∃ t, (acquire_loop crc bn ln content delay deadline fuel s).1.trace = s.trace ++ t := by
  intro fuel
  induction fuel with
  | zero =>
      intro s
      by_cases h : s.clock < deadline <;> exact ⟨[], by simp [acquire_loop, h]⟩
  | succ f ih =>
      intro s
      by_cases h : s.clock < deadline
      · have hd := blob_upload_trace crc ln content (some 0) s
        rcases hw : blob_upload crc ln content (some 0) s with ⟨s1, e1⟩
        rw [hw] at hd
        have hd2 : s1.trace = s.trace ++ [RemoteCall.upload ln (some 0)] := hd
        rcases e1 with _ | e1
        · exact ⟨[.upload ln (some 0)], by simp [acquire_loop, h, hw, hd2]⟩
        · cases e1 with
          | preconditionFailed =>
              obtain ⟨t, hmono⟩ := ih { s1 with clock := s1.clock + delay }
              refine ⟨RemoteCall.upload ln (some 0) :: t, ?_⟩
              simp only [acquire_loop, if_pos h, hw]
              rw [hmono]
              simp [hd2]
          | blobNotFound n => exact ⟨[.upload ln (some 0)], by simp [acquire_loop, h, hw, hd2]⟩
          | lockTimeout n => exact ⟨[.upload ln (some 0)], by simp [acquire_loop, h, hw, hd2]⟩
          | lockError => exact ⟨[.upload ln (some 0)], by simp [acquire_loop, h, hw, hd2]⟩
          | fuelOut => exact ⟨[.upload ln (some 0)], by simp [acquire_loop, h, hw, hd2]⟩
          | callerErr code => exact ⟨[.upload ln (some 0)], by simp [acquire_loop, h, hw, hd2]⟩
      · exact ⟨[], by simp [acquire_loop, h]⟩

/-- Claim C10: with a non-positive timeout the lease acquisition raises the
timeout error at once, leaving the state (in particular the remote-call trace)
exactly as it was, for every fuel; and as soon as the timeout is positive and
one loop step is available, the very first remote call is the conditional
create of the lock object. -/
theorem nonpositive_timeout_no_attempt (crc : Bytes → Bytes) (fuel : Nat)
    (timeout delay : Rat) (blob_name : String) (s : St) :
    (timeout ≤ 0 →
       acquire_blob_lock crc fuel timeout delay blob_name s
         = (s, some (.lockTimeout blob_name))) ∧
    (0 < timeout → 1 ≤ fuel →
       ∃ t, (acquire_blob_lock crc fuel timeout delay blob_name s).1.trace
          = s.trace ++ RemoteCall.upload (remote_lock_path blob_name) (some 0) :: t) := by
  constructor
  · intro h
    have hnlt : ¬ s.clock < s.clock + timeout := by
      rw [not_lt]
      linarith
    cases fuel <;> simp [acquire_blob_lock, acquire_loop, hnlt]
  · intro h hf
    obtain ⟨f, rfl⟩ : ∃ f, fuel = f + 1 := ⟨fuel - 1, by omega⟩
    have hlt : s.clock < s.clock + timeout := by linarith
    have hd := blob_upload_trace crc (remote_lock_path blob_name) (lockContent s) (some 0) s
    rcases hw : blob_upload crc (remote_lock_path blob_name) (lockContent s) (some 0) s
      with ⟨s1, e1⟩
    rw [hw] at hd
    have hd2 : s1.trace = s.trace ++ [RemoteCall.upload (remote_lock_path blob_name) (some 0)]
      := hd
    rcases e1 with _ | e1
    · exact ⟨[], by simp [acquire_blob_lock, acquire_loop, hlt, hw, hd2]⟩
    · cases e1 with
      | preconditionFailed =>
          obtain ⟨t, hmono⟩ := acquire_loop_trace_mono crc blob_name (remote_lock_path blob_name)
            (lockContent s) delay (s.clock + timeout) f { s1 with clock := s1.clock + delay }
          refine ⟨t, ?_⟩
          simp only [acquire_blob_lock, acquire_loop, if_pos hlt, hw]
          rw [hmono]
          simp [hd2]
      | blobNotFound n => exact ⟨[], by simp [acquire_blob_lock, acquire_loop, hlt, hw, hd2]⟩
      | lockTimeout n => exact ⟨[], by simp [acquire_blob_lock, acquire_loop, hlt, hw, hd2]⟩
      | lockError => exact ⟨[], by simp [acquire_blob_lock, acquire_loop, hlt, hw, hd2]⟩
      | fuelOut => exact ⟨[], by simp [acquire_blob_lock, acquire_loop, hlt, hw, hd2]⟩
      | callerErr code => exact ⟨[], by simp [acquire_blob_lock, acquire_loop, hlt, hw, hd2]⟩

theorem nonpositive_timeout_no_attempt_witness :
    acquire_blob_lock (fun b => 0 :: b) 3 0 1 "a" ⟨[], 1, [], [], [], "p", 0, []⟩
        = (⟨[], 1, [], [], [], "p", 0, []⟩, some (.lockTimeout "a")) ∧
    ∃ t, (acquire_blob_lock (fun b => 0 :: b) 3 1 1 "a" ⟨[], 1, [], [], [], "p", 0, []⟩).1.trace
        = [] ++ RemoteCall.upload (remote_lock_path "a") (some 0) :: t :=
  ⟨(nonpositive_timeout_no_attempt (fun b => 0 :: b) 3 0 1 "a" _).1 (by norm_num),
   (nonpositive_timeout_no_attempt (fun b => 0 :: b) 3 1 1 "a" _).2 (by norm_num) (by norm_num)⟩

end BucketLocker

namespace BucketLocker

theorem acquire_loop_times_out (crc : Bytes → Bytes) (bn ln : String) (content : Bytes)
    (delay deadline : Rat) (obj : RemoteObj) (hg : obj.gen ≠ 0) :
    ∀ (fuel : Nat) (s : St), lookupA s.gcs ln = some obj →
      deadline ≤ s.clock + (fuel : Rat) * delay →
      ∃ t clk, acquire_loop crc bn ln content delay deadline fuel s =
        ({ s with trace := s.trace ++ t, clock := clk }, some (.lockTimeout bn)) ∧
        ∀ c ∈ t, c = RemoteCall.upload ln (some 0) := by
  intro fuel
  induction fuel with
  | zero =>
      intro s hl hb
      have hnlt : ¬ s.clock < deadline := by
        rw [not_lt]
        simpa using hb
      refine ⟨[], s.clock, ?_, by simp⟩
      simp [acquire_loop, hnlt]
  | succ f ih =>
      intro s hl hb
      by_cases hlt : s.clock < deadline
      · have hgen : blobGeneration (record s (.upload ln (some 0))) ln = obj.gen := by
          simp [blobGeneration, record, hl]
        have hb2 : deadline ≤ (s.clock + delay) + (f : Rat) * delay := by
          push_cast at hb
          linarith
        obtain ⟨t, clk, heq, hmem⟩ := ih
          { s with trace := s.trace ++ [RemoteCall.upload ln (some 0)], clock := s.clock + delay }
          (by simpa using hl) (by simpa using hb2)
        have hstep : acquire_loop crc bn ln content delay deadline (f + 1) s =
            acquire_loop crc bn ln content delay deadline f
              { s with trace := s.trace ++ [RemoteCall.upload ln (some 0)],
                       clock := s.clock + delay } := by
          simp only [acquire_loop, if_pos hlt, blob_upload]
          rw [hgen, if_neg hg]
          rfl
        refine ⟨RemoteCall.upload ln (some 0) :: t, clk, ?_, ?_⟩
        · rw [hstep, heq]
          simp
        · intro c hc
          rcases List.mem_cons.mp hc with hc | hc
          · exact hc
          · exact hmem c hc
      · refine ⟨[], s.clock, ?_, by simp⟩
        simp [acquire_loop, hlt]

/-- Claim C3: when the lock object is already held so that lease acquisition
runs out of its deadline, the read-write session fails with the lock timeout
error, the remote store, the local file and the local sidecar are all exactly
as before, the local in-process lock ends released, and the only remote calls
made are the failed conditional creates of the lock object. -/
theorem lock_timeout_aborts (crc : Bytes → Bytes) (fuel : Nat) (timeout delay : Rat)
    (tok : String) (bodyWrite : Option Bytes) (bodyErr relFault : Option Err)
    (blob_name : String) (s : St) (obj : RemoteObj)
    (hl : lookupA s.gcs (remote_lock_path blob_name) = some obj)
    (hg : obj.gen ≠ 0)
    (hb : timeout ≤ (fuel : Rat) * delay) :
    (owned_local_copy crc fuel timeout delay tok bodyWrite bodyErr relFault blob_name s).2
        = some (.lockTimeout blob_name) ∧
    (owned_local_copy crc fuel timeout delay tok bodyWrite bodyErr relFault blob_name s).1.gcs
        = s.gcs ∧
    (owned_local_copy crc fuel timeout delay tok bodyWrite bodyErr relFault blob_name s).1.files
        = s.files ∧
    (owned_local_copy crc fuel timeout delay tok bodyWrite bodyErr relFault blob_name s).1.metas
        = s.metas ∧
    lookupA (owned_local_copy crc fuel timeout delay tok bodyWrite bodyErr relFault
        blob_name s).1.localLock blob_name = some false ∧
    ∃ t, (owned_local_copy crc fuel timeout delay tok bodyWrite bodyErr relFault
            blob_name s).1.trace = s.trace ++ t ∧
      ∀ c ∈ t, c = RemoteCall.upload (remote_lock_path blob_name) (some 0) := by
  have hb2 : (setLocalLock blob_name true s).clock + timeout
      ≤ (setLocalLock blob_name true s).clock + (fuel : Rat) * delay := by
    have : (setLocalLock blob_name true s).clock = s.clock := rfl
    rw [this]
    linarith
  obtain ⟨t, clk, heq, hmem⟩ := acquire_loop_times_out crc blob_name (remote_lock_path blob_name)
    (lockContent (setLocalLock blob_name true s)) delay
    ((setLocalLock blob_name true s).clock + timeout) obj hg fuel
    (setLocalLock blob_name true s) hl hb2
  have hkey : owned_local_copy crc fuel timeout delay tok bodyWrite bodyErr relFault blob_name s
      = (setLocalLock blob_name false
          { setLocalLock blob_name true s with
              trace := (setLocalLock blob_name true s).trace ++ t, clock := clk },
         some (.lockTimeout blob_name)) := by
    simp only [owned_local_copy, acquire_blob_lock]
    rw [heq]
  rw [hkey]
  refine ⟨rfl, rfl, rfl, rfl, ?_, ⟨t, rfl, hmem⟩⟩
  simp [setLocalLock, lookupA_insertA_self]

theorem lock_timeout_aborts_witness :
    (owned_local_copy (fun b => 0 :: b) 1 1 1 "t" none none none "a"
        ⟨[("locks/a.lock", ⟨1, [], none⟩)], 5, [], [], [], "p", 0, []⟩).2
        = some (.lockTimeout "a") ∧
    (owned_local_copy (fun b => 0 :: b) 1 1 1 "t" none none none "a"
        ⟨[("locks/a.lock", ⟨1, [], none⟩)], 5, [], [], [], "p", 0, []⟩).1.gcs
        = [("locks/a.lock", ⟨1, [], none⟩)] ∧
    (owned_local_copy (fun b => 0 :: b) 1 1 1 "t" none none none "a"
        ⟨[("locks/a.lock", ⟨1, [], none⟩)], 5, [], [], [], "p", 0, []⟩).1.files = [] ∧
    (owned_local_copy (fun b => 0 :: b) 1 1 1 "t" none none none "a"
        ⟨[("locks/a.lock", ⟨1, [], none⟩)], 5, [], [], [], "p", 0, []⟩).1.metas = [] ∧
    lookupA (owned_local_copy (fun b => 0 :: b) 1 1 1 "t" none none none "a"
        ⟨[("locks/a.lock", ⟨1, [], none⟩)], 5, [], [], [], "p", 0, []⟩).1.localLock "a"
        = some false ∧
    ∃ t, (owned_local_copy (fun b => 0 :: b) 1 1 1 "t" none none none "a"
        ⟨[("locks/a.lock", ⟨1, [], none⟩)], 5, [], [], [], "p", 0, []⟩).1.trace = [] ++ t ∧
      ∀ c ∈ t, c = RemoteCall.upload (remote_lock_path "a") (some 0) :=
  lock_timeout_aborts (fun b => 0 :: b) 1 1 1 "t" none none none "a" _ ⟨1, [], none⟩
    (by decide) (by decide) (by norm_num)

end BucketLocker

namespace BucketLocker

theorem acquire_first_try (crc : Bytes → Bytes) (f : Nat) (timeout delay : Rat)
    (blob_name : String) (s : St)
    (hl : lookupA s.gcs (remote_lock_path blob_name) = none)
    (ht : 0 < timeout) :
    acquire_blob_lock crc (f + 1) timeout delay blob_name s =
      ({ s with gcs := insertA s.gcs (remote_lock_path blob_name)
                  ⟨s.nextGen, lockContent s, some (crc (lockContent s))⟩,
                nextGen := s.nextGen + 1,
                trace := s.trace ++ [.upload (remote_lock_path blob_name) (some 0)] }, none) := by
  have hlt : s.clock < s.clock + timeout := by linarith
  have hgen : blobGeneration (record s (.upload (remote_lock_path blob_name) (some 0)))
      (remote_lock_path blob_name) = 0 := by
    simp [blobGeneration, record, hl]
  simp only [acquire_blob_lock, acquire_loop, if_pos hlt, blob_upload]
  rw [hgen]
  rfl

theorem finally_release (blob_name : String) (x : St × Option Err) :
    lookupA (pyFinally x (release_blob_lock none blob_name)).1.gcs
        (remote_lock_path blob_name) = none ∧
    (pyFinally x (release_blob_lock none blob_name)).1.trace.getLast?
        = some (.deleteCall (remote_lock_path blob_name)) ∧
    (pyFinally x (release_blob_lock none blob_name)).2 = x.2 := by
  refine ⟨?_, ?_, ?_⟩
  · simp [pyFinally, release_blob_lock, record, lookupA_eraseA_self]
  · simp [pyFinally, release_blob_lock, record, List.getLast?_concat]
  · simp [pyFinally, release_blob_lock]

theorem post_acquire_release (crc : Bytes → Bytes) (tok blob_name : String)
    (bodyWrite : Option Bytes) (bodyErr : Option Err) (s1 : St) (r : St × Option Err)
    (hr : r = pyFinally
        (match download_blob blob_name s1 with
         | (s2, some e) => (s2, some e)
         | (s2, none) =>
             pyFinally (runBody bodyWrite bodyErr blob_name s2)
               (upload_blob crc tok blob_name))
        (release_blob_lock none blob_name)) :
    lookupA r.1.gcs (remote_lock_path blob_name) = none ∧
    r.1.trace.getLast? = some (.deleteCall (remote_lock_path blob_name)) ∧
    (bodyErr.isSome → r.2.isSome) := by
  subst hr
  obtain ⟨h1, h2, h3⟩ := finally_release blob_name
    (match download_blob blob_name s1 with
     | (s2, some e) => (s2, some e)
     | (s2, none) =>
         pyFinally (runBody bodyWrite bodyErr blob_name s2)
           (upload_blob crc tok blob_name))
  refine ⟨h1, h2, ?_⟩
  intro hb
  rw [h3]
  rcases hdl : download_blob blob_name s1 with ⟨s2, e2⟩
  rcases e2 with _ | e2
  · rcases hub : upload_blob crc tok blob_name
        (runBody bodyWrite bodyErr blob_name s2).1 with ⟨s4, e4⟩
    have h4 : (runBody bodyWrite bodyErr blob_name s2).2 = bodyErr := by
      cases bodyWrite <;> rfl
    have : (pyFinally (runBody bodyWrite bodyErr blob_name s2)
        (upload_blob crc tok blob_name)).2 = e4.orElse (fun _ => bodyErr) := by
      simp only [pyFinally, hub, h4]
    simp only [this]
    rcases e4 with _ | e4 <;> simp_all
  · simp

theorem owned_after_acquire (crc : Bytes → Bytes) (fuel : Nat) (timeout delay : Rat)
    (tok : String) (bodyWrite : Option Bytes) (bodyErr : Option Err)
    (blob_name : String) (s sB : St)
    (hacq : acquire_blob_lock crc fuel timeout delay blob_name
        (setLocalLock blob_name true s) = (sB, none)) :
    lookupA (owned_local_copy crc fuel timeout delay tok bodyWrite bodyErr none
        blob_name s).1.gcs (remote_lock_path blob_name) = none ∧
    lookupA (owned_local_copy crc fuel timeout delay tok bodyWrite bodyErr none
        blob_name s).1.localLock blob_name = some false ∧
    (owned_local_copy crc fuel timeout delay tok bodyWrite bodyErr none
        blob_name s).1.trace.getLast? = some (.deleteCall (remote_lock_path blob_name)) ∧
    (bodyErr.isSome → (owned_local_copy crc fuel timeout delay tok bodyWrite bodyErr none
        blob_name s).2.isSome) := by
  obtain ⟨h1, h2, h3⟩ := post_acquire_release crc tok blob_name bodyWrite bodyErr sB _ rfl
  have hkey : owned_local_copy crc fuel timeout delay tok bodyWrite bodyErr none blob_name s
      = (setLocalLock blob_name false (pyFinally
          (match download_blob blob_name sB with
           | (s2, some e) => (s2, some e)
           | (s2, none) =>
               pyFinally (runBody bodyWrite bodyErr blob_name s2)
                 (upload_blob crc tok blob_name))
          (release_blob_lock none blob_name)).1,
         (pyFinally
          (match download_blob blob_name sB with
           | (s2, some e) => (s2, some e)
           | (s2, none) =>
               pyFinally (runBody bodyWrite bodyErr blob_name s2)
                 (upload_blob crc tok blob_name))
          (release_blob_lock none blob_name)).2) := by
    simp only [owned_local_copy]
    rw [hacq]
  rw [hkey]
  exact ⟨h1, by simp [setLocalLock, lookupA_insertA_self], h2, h3⟩

/-- Claim C2: in a read-write session whose lease acquisition succeeded, on
every exit path, whether the download fails, the caller body raises, or the
upload raises, the lock object ends deleted from the store, the deletion is
the last remote call made (so it happens before any failure propagates), the
local in-process lock ends released, and a failure of the caller body does
propagate to the caller. -/
theorem lease_released_every_path (crc : Bytes → Bytes) (fuel : Nat) (timeout delay : Rat)
    (tok : String) (bodyWrite : Option Bytes) (bodyErr : Option Err)
    (blob_name : String) (s : St)
    (hl : lookupA s.gcs (remote_lock_path blob_name) = none)
    (ht : 0 < timeout) (hf : 1 ≤ fuel) :
    lookupA (owned_local_copy crc fuel timeout delay tok bodyWrite bodyErr none
        blob_name s).1.gcs (remote_lock_path blob_name) = none ∧
    lookupA (owned_local_copy crc fuel timeout delay tok bodyWrite bodyErr none
        blob_name s).1.localLock blob_name = some false ∧
    (owned_local_copy crc fuel timeout delay tok bodyWrite bodyErr none
        blob_name s).1.trace.getLast? = some (.deleteCall (remote_lock_path blob_name)) ∧
    (bodyErr.isSome → (owned_local_copy crc fuel timeout delay tok bodyWrite bodyErr none
        blob_name s).2.isSome) := by
  obtain ⟨f, rfl⟩ : ∃ f, fuel = f + 1 := ⟨fuel - 1, by omega⟩
  exact owned_after_acquire crc (f + 1) timeout delay tok bodyWrite bodyErr blob_name s _
    (acquire_first_try crc f timeout delay blob_name (setLocalLock blob_name true s) hl ht)

theorem lease_released_every_path_witness :
    lookupA (owned_local_copy (fun b => 0 :: b) 1 1 1 "t" none (some (.callerErr 0)) none
        "a" ⟨[], 1, [], [], [], "p", 0, []⟩).1.gcs (remote_lock_path "a") = none ∧
    lookupA (owned_local_copy (fun b => 0 :: b) 1 1 1 "t" none (some (.callerErr 0)) none
        "a" ⟨[], 1, [], [], [], "p", 0, []⟩).1.localLock "a" = some false ∧
    (owned_local_copy (fun b => 0 :: b) 1 1 1 "t" none (some (.callerErr 0)) none
        "a" ⟨[], 1, [], [], [], "p", 0, []⟩).1.trace.getLast?
        = some (.deleteCall (remote_lock_path "a")) ∧
    ((some (Err.callerErr 0)).isSome →
      (owned_local_copy (fun b => 0 :: b) 1 1 1 "t" none (some (.callerErr 0)) none
        "a" ⟨[], 1, [], [], [], "p", 0, []⟩).2.isSome) :=
  lease_released_every_path (fun b => 0 :: b) 1 1 1 "t" none (some (.callerErr 0)) "a"
    ⟨[], 1, [], [], [], "p", 0, []⟩ (by decide) (by norm_num) (by norm_num)

end BucketLocker

namespace BucketLocker

theorem local_in_sync_fst_congr (blob_name : String) (s s2 : St)
    (hm : lookupA s2.metas blob_name = lookupA s.metas blob_name)
    (hg : lookupA s2.gcs blob_name = lookupA s.gcs blob_name) :
    (local_in_sync blob_name s2).1 = (local_in_sync blob_name s).1 := by
  unfold local_in_sync
  rw [hm]
  cases lookupA s.metas blob_name <;> simp [blobGeneration, record, hg]

theorem local_in_sync_snd_frame (blob_name : String) (s : St) :
    (local_in_sync blob_name s).2.gcs = s.gcs ∧
    (local_in_sync blob_name s).2.files = s.files ∧
    (local_in_sync blob_name s).2.metas = s.metas := by
  unfold local_in_sync
  cases lookupA s.metas blob_name <;> simp [record]

theorem download_not_found (blob_name : String) (s : St)
    (h1 : lookupA s.gcs blob_name = none)
    (h2 : (local_in_sync blob_name s).1 = false) :
    (download_blob blob_name s).2 = some (.blobNotFound blob_name) ∧
    (download_blob blob_name s).1.files = s.files ∧
    (download_blob blob_name s).1.metas = s.metas ∧
    (download_blob blob_name s).1.gcs = s.gcs := by
  obtain ⟨hg, hf, hm⟩ := local_in_sync_snd_frame blob_name s
  have hl2 : lookupA (record (local_in_sync blob_name s).2 (.existsCheck blob_name)).gcs
      blob_name = none := by
    simpa [record, hg] using h1
  refine ⟨?_, ?_, ?_, ?_⟩ <;>
    simp only [download_blob, h2, Bool.false_eq_true, if_false, hl2] <;>
    simp [record] <;>
    simp [hf, hm, hg]

theorem owned_download_fails (crc : Bytes → Bytes) (fuel : Nat) (timeout delay : Rat)
    (tok : String) (bodyWrite : Option Bytes) (bodyErr relFault : Option Err)
    (blob_name : String) (s sB : St)
    (hacq : acquire_blob_lock crc fuel timeout delay blob_name
        (setLocalLock blob_name true s) = (sB, none))
    (hdl : (download_blob blob_name sB).2 = some (.blobNotFound blob_name))
    (hfiles : (download_blob blob_name sB).1.files = s.files)
    (hmetas : (download_blob blob_name sB).1.metas = s.metas) :
    (owned_local_copy crc fuel timeout delay tok bodyWrite bodyErr relFault blob_name s).2
        = some (.blobNotFound blob_name) ∧
    (owned_local_copy crc fuel timeout delay tok bodyWrite bodyErr relFault
        blob_name s).1.files = s.files ∧
    (owned_local_copy crc fuel timeout delay tok bodyWrite bodyErr relFault
        blob_name s).1.metas = s.metas := by
  rcases hd : download_blob blob_name sB with ⟨s2, e2⟩
  rw [hd] at hdl hfiles hmetas
  have he : e2 = some (.blobNotFound blob_name) := hdl
  subst he
  have hrel1 : (release_blob_lock relFault blob_name s2).1.files = s2.files := by
    cases relFault <;> rfl
  have hrel2 : (release_blob_lock relFault blob_name s2).1.metas = s2.metas := by
    cases relFault <;> rfl
  have hrel0 : (release_blob_lock relFault blob_name s2).2 = none := by
    cases relFault <;> rfl
  have hkey : owned_local_copy crc fuel timeout delay tok bodyWrite bodyErr relFault blob_name s
      = (setLocalLock blob_name false
          (pyFinally (s2, some (.blobNotFound blob_name))
            (release_blob_lock relFault blob_name)).1,
         (pyFinally (s2, some (.blobNotFound blob_name))
            (release_blob_lock relFault blob_name)).2) := by
    simp only [owned_local_copy, hacq, hd]
  rw [hkey]
  refine ⟨?_, ?_, ?_⟩
  · simp [pyFinally, hrel0]
  · simpa [pyFinally, setLocalLock, hrel1] using hfiles
  · simpa [pyFinally, setLocalLock, hrel2] using hmetas

/-- Claim C4: for a resource with no remote object and no in-sync local copy,
the sync step, the read-only session and the read-write session (whose lease
acquisition succeeds because the lock object is free) all fail with the typed
BlobNotFound error, and none of them creates a local file or a local metadata
sidecar. -/
theorem not_found_aborts (crc : Bytes → Bytes) (f : Nat) (timeout delay : Rat)
    (tok : String) (bodyWrite : Option Bytes) (bodyErr relFault : Option Err)
    (blob_name : String) (s : St)
    (h1 : lookupA s.gcs blob_name = none)
    (h2 : (local_in_sync blob_name s).1 = false)
    (h3 : lookupA s.gcs (remote_lock_path blob_name) = none)
    (ht : 0 < timeout) :
    ((download_blob blob_name s).2 = some (.blobNotFound blob_name) ∧
       (download_blob blob_name s).1.files = s.files ∧
       (download_blob blob_name s).1.metas = s.metas) ∧
    ((readonly_local_copy bodyErr blob_name s).2 = some (.blobNotFound blob_name) ∧
       (readonly_local_copy bodyErr blob_name s).1.files = s.files ∧
       (readonly_local_copy bodyErr blob_name s).1.metas = s.metas) ∧
    ((owned_local_copy crc (f + 1) timeout delay tok bodyWrite bodyErr relFault
          blob_name s).2 = some (.blobNotFound blob_name) ∧
       (owned_local_copy crc (f + 1) timeout delay tok bodyWrite bodyErr relFault
          blob_name s).1.files = s.files ∧
       (owned_local_copy crc (f + 1) timeout delay tok bodyWrite bodyErr relFault
          blob_name s).1.metas = s.metas) := by
  obtain ⟨hd1, hd2, hd3, hd4⟩ := download_not_found blob_name s h1 h2
  refine ⟨⟨hd1, hd2, hd3⟩, ?_, ?_⟩
  · -- read-only session
    have h2A : (local_in_sync blob_name (setLocalLock blob_name true s)).1 = false :=
      (local_in_sync_fst_congr blob_name s (setLocalLock blob_name true s) rfl rfl).trans h2
    obtain ⟨ha1, ha2, ha3, ha4⟩ :=
      download_not_found blob_name (setLocalLock blob_name true s) h1 h2A
    rcases hd : download_blob blob_name (setLocalLock blob_name true s) with ⟨s1, e1⟩
    rw [hd] at ha1 ha2 ha3
    have he : e1 = some (.blobNotFound blob_name) := ha1
    subst he
    have hkey : readonly_local_copy bodyErr blob_name s
        = (setLocalLock blob_name false s1, some (.blobNotFound blob_name)) := by
      simp only [readonly_local_copy]
      rw [hd]
    rw [hkey]
    exact ⟨rfl, ha2, ha3⟩
  · -- read-write session
    have hA := acquire_first_try crc f timeout delay blob_name
      (setLocalLock blob_name true s) h3 ht
    have hne := ne_remote_lock_path blob_name
    rcases hacq : acquire_blob_lock crc (f + 1) timeout delay blob_name
        (setLocalLock blob_name true s) with ⟨sB, eB⟩
    have hpair := hA.symm.trans hacq
    injection hpair with hsB heB
    rw [← heB] at hacq
    have hgB : lookupA sB.gcs blob_name = lookupA s.gcs blob_name := by
      rw [← hsB]
      exact lookupA_insertA_ne s.gcs (remote_lock_path blob_name) blob_name _ hne
    have hmB : lookupA sB.metas blob_name = lookupA s.metas blob_name := by
      rw [← hsB]
      rfl
    have h1B : lookupA sB.gcs blob_name = none := hgB.trans h1
    have h2B : (local_in_sync blob_name sB).1 = false :=
      (local_in_sync_fst_congr blob_name s sB hmB hgB).trans h2
    obtain ⟨hnf1, hnf2, hnf3, _⟩ := download_not_found blob_name sB h1B h2B
    have hfiles : (download_blob blob_name sB).1.files = s.files := by
      rw [hnf2, ← hsB]
      rfl
    have hmetas : (download_blob blob_name sB).1.metas = s.metas := by
      rw [hnf3, ← hsB]
      rfl
    exact owned_download_fails crc (f + 1) timeout delay tok bodyWrite bodyErr relFault
      blob_name s sB hacq hnf1 hfiles hmetas

end BucketLocker

namespace BucketLocker

theorem not_found_aborts_witness :
    ((download_blob "a" ⟨[], 1, [], [], [], "p", 0, []⟩).2 = some (.blobNotFound "a") ∧
       (download_blob "a" ⟨[], 1, [], [], [], "p", 0, []⟩).1.files = [] ∧
       (download_blob "a" ⟨[], 1, [], [], [], "p", 0, []⟩).1.metas = []) ∧
    ((readonly_local_copy none "a" ⟨[], 1, [], [], [], "p", 0, []⟩).2
        = some (.blobNotFound "a") ∧
       (readonly_local_copy none "a" ⟨[], 1, [], [], [], "p", 0, []⟩).1.files = [] ∧
       (readonly_local_copy none "a" ⟨[], 1, [], [], [], "p", 0, []⟩).1.metas = []) ∧
    ((owned_local_copy (fun b => 0 :: b) (0 + 1) 1 1 "t" none none none "a"
          ⟨[], 1, [], [], [], "p", 0, []⟩).2 = some (.blobNotFound "a") ∧
       (owned_local_copy (fun b => 0 :: b) (0 + 1) 1 1 "t" none none none "a"
          ⟨[], 1, [], [], [], "p", 0, []⟩).1.files = [] ∧
       (owned_local_copy (fun b => 0 :: b) (0 + 1) 1 1 "t" none none none "a"
          ⟨[], 1, [], [], [], "p", 0, []⟩).1.metas = []) :=
  not_found_aborts (fun b => 0 :: b) 0 1 1 "t" none none none "a"
    ⟨[], 1, [], [], [], "p", 0, []⟩ (by decide) (by decide) (by decide) (by norm_num)

end BucketLocker
